import Mathlib

/-
Shallow embedding of `src/helpers/customFile.ts` (class `CustomFile`), a
dual-mode chunked file buffer.  JavaScript numbers that can become NaN (or
another non-finite value such as Infinity, or `undefined` used in arithmetic)
are modelled as `Option ℚ` with `none` for the non-finite results; fields the
code sets to `null` in `destroy()` are `Option` fields with `none` for `null`.
Binary chunks and blobs are modelled by their byte size (`ℕ`): the code only
ever inspects `.size` / byte length of a chunk.  Asynchronous platform
callbacks (file-system request, file-entry open, writer completion, stream
pulls) are modelled by explicit oracle parameters, and each operation returns
the chronological list of events it emits, the file-system operations it
issues, the successor state, and how its returned promise settles.
-/

namespace PearFS

/-- JavaScript number that may be a non-finite value (NaN, Infinity) or the
result of arithmetic on `undefined`; `none` models all non-finite results. -/
abbrev JNum := Option ℚ

/-- JS `+` on numbers: any non-finite operand gives a non-finite result
(`number + undefined` is NaN). -/
def jsAdd : JNum → JNum → JNum
  | some a, some b => some (a + b)
  | _, _ => none

/-- JS `x / y` where `y` is a number-or-null field: `null` coerces to `0`,
division by zero is non-finite (Infinity/NaN), and a non-finite operand gives
a non-finite result; all non-finite outcomes collapse to `none`. -/
def jsDiv : JNum → Option ℕ → JNum
  | some a, some b => if b = 0 then none else some (a / (b : ℚ))
  | _, _ => none

/-- JS `a < b` where `a` is a number possibly NaN and `b` a number-or-null
field: any comparison with NaN is `false`; `null` coerces to `0`. -/
def jsLtSize : JNum → Option ℕ → Bool
  | none, _ => false
  | some a, none => decide (a < 0)
  | some a, some n => decide (a < (n : ℚ))

/-- JS `a < m` where `a` is a number-or-null field (`null` coerces to `0`)
and `m` is a numeric literal. -/
def jsLtLit : Option ℕ → ℕ → Bool
  | none, m => decide (0 < m)
  | some n, m => decide (n < m)

/-- The two write strategies: `"mem"` (memory storage) and `"fs"`
(temporary-file-system storage). -/
inductive WMode where
  | mem
  | fs
  deriving DecidableEq, Repr

/-- Events emitted through the EventEmitter surface, in emission order. -/
inductive Ev where
  | ready
  | progress (r : JNum)
  | dataSlice (start stop : ℚ) (mime : Option String) (size : ℚ)
  | dataBlock (byteLength : ℕ)
  | dataNull
  | error (msg : String)
  | finish
  | done
  | destroyEv
  deriving DecidableEq, Repr

/-- Settlement of a promise returned by an operation: it may stay pending
forever when no executor path calls `resolve`/`reject`. -/
inductive Settle where
  | pending
  | resolved
  | rejected (e : String)
  deriving DecidableEq, Repr

/-- Operations issued against the platform temporary file system. -/
inductive FsOp where
  | getFile (name : Option String) (create : Bool)
  | seek (off : JNum)
  | writeBlob (size : ℕ)
  | removeEntry
  deriving DecidableEq, Repr

/-- State of a `CustomFile` instance. `file` models `_file` by its byte size
(`none` when `null`/`undefined`); `memoryStorage` holds the byte sizes of the
stored chunks in arrival order; `hasReadStream`/`hasReader` model whether
`_readStream`/`_reader` are set; `hasFs`/`hasFileEntry` model `_fs` and
`_fileEntry` being non-null. -/
structure CustomFile where
  mode : Option ℕ
  file : Option ℕ
  memoryStorage : Option (List ℕ)
  name : Option String
  localName : Option String
  typ : Option String
  size : Option ℕ
  pieces : Option ℕ
  pieceLength : Option ℕ
  hasReadStream : Bool
  hasReader : Bool
  requestFileSystemAvail : Bool
  writeMode : Option WMode
  create : Bool
  hasFs : Bool
  hasFileEntry : Bool
  bytesWritten : JNum
  bytesRead : JNum
  destroyed : Bool
  deriving DecidableEq, Repr

/-- Constructor options (`CustomFileOptions`): `file` is the optional source
file (modelled by its byte size), the rest mirror the source fields. -/
structure CustomFileOptions where
  file : Option ℕ
  pieces : ℕ
  pieceLength : ℕ
  filename : String
  typ : String
  size : ℕ
  deriving DecidableEq, Repr

/-- The constructor: fields as assigned in `constructor(mode, opts)`;
`ts` is the timestamp used for `_localName`, `rfsAvail` whether
`window.requestFileSystem || window.webkitRequestFileSystem` exists.  The
constructor also registers `destroy` as a `finish` listener, which
`emitFinish` below hard-wires. -/
def mkCustomFile (mode : ℕ) (opts : CustomFileOptions) (ts : ℕ)
    (rfsAvail : Bool) : CustomFile :=
  { mode := some mode
    file := opts.file
    memoryStorage := none
    name := some opts.filename
    localName := some (toString ts ++ "-" ++ opts.filename)
    typ := some opts.typ
    size := some opts.size
    pieces := some opts.pieces
    pieceLength := some opts.pieceLength
    hasReadStream := false
    hasReader := false
    requestFileSystemAvail := rfsAvail
    writeMode := none
    create := true
    hasFs := false
    hasFileEntry := false
    bytesWritten := some 0
    bytesRead := some 0
    destroyed := false }

/-- `destroy()` — emits `done`, nulls every listed field, resets both byte
counters to `0`, resets `_create` to `true`, sets `_destroyed`, and emits
`destroy`.  `_readStream`, `_reader` and `_fileEntry` are NOT cleared (the
source nulls neither). -/
def CustomFile.destroyFn (s : CustomFile) : List Ev × CustomFile :=
  ([Ev.done, Ev.destroyEv],
   { mode := none
     file := none
     memoryStorage := none
     name := none
     localName := none
     typ := none
     size := none
     pieces := none
     pieceLength := none
     hasReadStream := s.hasReadStream
     hasReader := s.hasReader
     requestFileSystemAvail := false
     writeMode := none
     create := true
     hasFs := false
     hasFileEntry := s.hasFileEntry
     bytesWritten := some 0
     bytesRead := some 0
     destroyed := true })

/-- Emitting `finish` synchronously runs the `destroy` listener registered in
the constructor (`this.on("finish", this.destroy.bind(this))`), so the
observable emission sequence is `finish`, then the events of `destroy()`. -/
def CustomFile.emitFinish (s : CustomFile) : List Ev × CustomFile :=
  (Ev.finish :: s.destroyFn.1, s.destroyFn.2)

/-- Environment for `init()`: whether `window.TEMPORARY` is defined and the
asynchronous outcome of `requestFileSystem` (externally injected). -/
structure InitEnv where
  temporary : Bool
  fsRequest : Except String Unit
  deriving Repr

/-- `init()` — in write mode (`0x1`): below 500 MiB select memory storage
and emit `ready`; otherwise, with `requestFileSystem` and `TEMPORARY`
available, request a file system of `_size` bytes and on success select the
fs strategy and emit `ready`, on failure emit `error`; without file-system
support fall back to memory storage with a warning and emit `ready`.  In read
mode (`0x2`): with a `File` instance present, open its stream and emit
`ready`, otherwise emit `error`.  Any other mode throws, which the
surrounding `try` turns into an `error` emission. -/
def CustomFile.init (env : InitEnv) (s : CustomFile) : List Ev × CustomFile :=
  match s.mode with
  | some 1 =>
      if jsLtLit s.size (500 * 1024 * 1024) then
        ([Ev.ready], { s with memoryStorage := some [], writeMode := some WMode.mem })
      else if s.requestFileSystemAvail && env.temporary then
        match env.fsRequest with
        | Except.ok _ =>
            ([Ev.ready], { s with hasFs := true, writeMode := some WMode.fs })
        | Except.error e => ([Ev.error e], s)
      else
        ([Ev.ready], { s with memoryStorage := some [], writeMode := some WMode.mem })
  | some 2 =>
      match s.file with
      | some _ => ([Ev.ready], { s with hasReadStream := true })
      | none =>
          ([Ev.error ("Reading mode. Expected File instance but received undefined")], s)
  | _ => ([Ev.error ("Unsupported file mode.")], s)

/-- `_writeMem(chunk)` — pushes the chunk onto `_memoryStorage`, adds
`chunk.size` to `_bytesWritten`, and emits `progress` with the post-push
chunk count divided by `_pieces`.  As an `async` method it returns a promise
that resolves on normal return; if `_memoryStorage` were `null` the `push`
would throw and the promise reject (unreachable when the `"mem"` write mode
is set). -/
def CustomFile.writeMem (chunk : ℕ) (s : CustomFile) :
    List Ev × CustomFile × Settle :=
  match s.memoryStorage with
  | none => ([], s, Settle.rejected ("TypeError: cannot push on null"))
  | some l =>
      ([Ev.progress (jsDiv (some ((l.length + 1 : ℕ) : ℚ)) s.pieces)],
       { s with
          memoryStorage := some (l ++ [chunk])
          bytesWritten := jsAdd s.bytesWritten (some (chunk : ℚ)) },
       Settle.resolved)

/-- Oracle for `_writeFs`: outcome of `fs.root.getFile` and of the writer
`write` (reported through `onwriteend` / `onerror`). -/
structure FsWriteEnv where
  getFile : Except String Unit
  write : Except String Unit
  deriving Repr

/-- `_writeFs(chunk)` — calls `getFile(_localName, {create: _create})`;
on open failure the promise rejects with no event and no state change.  On
success `_create` is cleared and `_fileEntry` kept, a `Blob` of the chunk is
built (its `size` equals the chunk byte length), the writer is sought to the
current `_bytesWritten` and the blob written.  On `onwriteend`,
`_bytesWritten` grows by `blob.size`, `progress` = `_bytesWritten / _size`
is emitted and the promise resolves; on `onerror` the promise rejects and
`_bytesWritten` is not advanced. -/
def CustomFile.writeFs (env : FsWriteEnv) (chunk : ℕ) (s : CustomFile) :
    List Ev × List FsOp × CustomFile × Settle :=
  match env.getFile with
  | Except.error e =>
      ([], [FsOp.getFile s.localName s.create], s, Settle.rejected e)
  | Except.ok _ =>
      let s1 := { s with create := false, hasFileEntry := true }
      let ops := [FsOp.getFile s.localName s.create,
                  FsOp.seek s.bytesWritten, FsOp.writeBlob chunk]
      match env.write with
      | Except.ok _ =>
          let bw := jsAdd s1.bytesWritten (some (chunk : ℚ))
          ([Ev.progress (jsDiv bw s1.size)], ops,
           { s1 with bytesWritten := bw }, Settle.resolved)
      | Except.error e => ([], ops, s1, Settle.rejected e)

/-- `write(chunk)` — dispatches on `_writeMode`; with no write mode set it
emits `error` and returns an already-resolved promise. -/
def CustomFile.write (env : FsWriteEnv) (chunk : ℕ) (s : CustomFile) :
    List Ev × List FsOp × CustomFile × Settle :=
  match s.writeMode with
  | some WMode.mem =>
      match s.writeMem chunk with
      | (evs, s2, st) => (evs, [], s2, st)
  | some WMode.fs => s.writeFs env chunk
  | none => ([Ev.error ("No write mode set.")], [], s, Settle.resolved)

/-- Byte size of `file.slice(start, stop)` on a file of `n` bytes: offsets
are clamped to `[0, n]` and the span is non-negative.  (The from-the-end
semantics of negative offsets is irrelevant here: every offset the code
passes is non-negative.) -/
def sliceSize (n : ℕ) (start stop : ℚ) : ℚ :=
  max (min stop (n : ℚ) - min (max start 0) (n : ℚ)) 0

/-- Result of one pull on the stream reader: the stream is done, or yields a
block of the given byte length. -/
inductive Pull where
  | done
  | value (byteLength : ℕ)
  deriving DecidableEq, Repr

/-- `read(inChunk)` — result is (events, state, threw).

Chunked path: while `_bytesRead < _size`, slice
`[_bytesRead, min(_bytesRead + _pieceLength, _size))` out of `_file` typed
with `_type`, advance `_bytesRead` by the slice byte size, emit `data` with
the slice then `progress` = `_bytesRead / _size`; otherwise emit `data`
with `null`.  (Slicing a `null` file would throw.)

Stream path: without `_readStream` emit `error`; otherwise acquire the
reader once and pull.  When the pull reports `done`, the code emits `data`
`null` and then evaluates `value.bytesLenght` on the `undefined` value,
which throws.  Otherwise `value.bytesLenght` is a misspelling of
`byteLength` and reads `undefined`, so `_bytesRead += undefined` makes
`_bytesRead` NaN; `data` with the block and `progress` are still emitted. -/
def CustomFile.read (inChunk : Bool) (pull : Pull) (s : CustomFile) :
    List Ev × CustomFile × Bool :=
  if inChunk then
    if jsLtSize s.bytesRead s.size then
      match s.file with
      | none => ([], s, true)
      | some n =>
          let br := s.bytesRead.getD 0
          let stop := min (br + ((s.pieceLength.getD 0 : ℕ) : ℚ))
                          (((s.size.getD 0 : ℕ) : ℚ))
          let bs := sliceSize n br stop
          let br2 : JNum := some (br + bs)
          ([Ev.dataSlice br stop s.typ bs, Ev.progress (jsDiv br2 s.size)],
           { s with bytesRead := br2 }, false)
    else
      ([Ev.dataNull], s, false)
  else
    if !s.hasReadStream then
      ([Ev.error ("Cannot read before init() is called.")], s, false)
    else
      let s1 := { s with hasReader := true }
      match pull with
      | Pull.done => ([Ev.dataNull], s1, true)
      | Pull.value b =>
          let br2 := jsAdd s1.bytesRead none
          ([Ev.dataBlock b, Ev.progress (jsDiv br2 s1.size)],
           { s1 with bytesRead := br2 }, false)

/-- `save()` — builds an anchor and, per strategy, points it at the file
entry URL (fs) or at a blob concatenated from `_memoryStorage` (mem); the
click handler schedules `remove()` on a microtask (second component).  It
emits no events and never touches the byte counters; with no write mode set
neither branch runs. -/
def CustomFile.save (s : CustomFile) : List Ev × CustomFile × Bool :=
  match s.writeMode with
  | some WMode.fs => ([], s, true)
  | some WMode.mem => ([], s, true)
  | none => ([], s, false)

/-- Node-style event emitter underlying `CustomFile`: listeners are
`(event, callback id, once?)` triples in registration order; a listener
registered through the native `once` is dropped after it first fires. -/
structure Emitter where
  listeners : List (String × ℕ × Bool)
  deriving DecidableEq, Repr

/-- `EventEmitter.prototype.on` — registers a persistent listener. -/
def Emitter.addOn (evt : String) (cb : ℕ) (e : Emitter) : Emitter :=
  { listeners := e.listeners ++ [(evt, cb, false)] }

/-- The native `EventEmitter.prototype.once` — registers a listener removed
after its first invocation. -/
def Emitter.addOnceNative (evt : String) (cb : ℕ) (e : Emitter) : Emitter :=
  { listeners := e.listeners ++ [(evt, cb, true)] }

/-- `emit(evt)` — invokes every listener registered for `evt` (in order) and
removes those that were registered as one-shot. -/
def Emitter.emitEv (evt : String) (e : Emitter) : List ℕ × Emitter :=
  (e.listeners.filterMap (fun l => if l.1 = evt then some l.2.1 else none),
   { listeners := e.listeners.filter (fun l => !(l.1 = evt && l.2.2)) })

/-- Callbacks fired over `k` successive emissions of `evt`. -/
def Emitter.emitSeq : ℕ → String → Emitter → List ℕ
  | 0, _, _ => []
  | k + 1, evt, e => (e.emitEv evt).1 ++ Emitter.emitSeq k evt (e.emitEv evt).2

/-- `CustomFile`'s `on` override — its body is `return super.on(evt, callback)`. -/
def customOn (evt : String) (cb : ℕ) (e : Emitter) : Emitter :=
  Emitter.addOn evt cb e

/-- `CustomFile`'s `once` override — its body is also
`return super.on(evt, callback)`, not `super.once`. -/
def customOnce (evt : String) (cb : ℕ) (e : Emitter) : Emitter :=
  Emitter.addOn evt cb e

/-- Folds `_writeMem` over a list of chunk byte sizes, in arrival order. -/
def memAppends : List ℕ → CustomFile → CustomFile
  | [], s => s
  | c :: cs, s => memAppends cs (s.writeMem c).2.1

/-- State after `k` successive calls of `read(true)` (the pull argument is
irrelevant on the chunked path). -/
def chunkedIter : ℕ → CustomFile → CustomFile
  | 0, s => s
  | k + 1, s => ((chunkedIter k s).read true Pull.done).2.1

/-- Ceiling division on naturals. -/
def ceilDiv (a b : ℕ) : ℕ := (a + b - 1) / b

/-- Oracle for `remove()`: outcome of `getFile(_localName, {create:false})`
and of `fileEntry.remove`. -/
structure RemoveEnv where
  getFile : Except String Unit
  removeEntry : Except String Unit
  deriving Repr

/-- `remove()` — fs strategy: open the entry with `create: false`; on open
failure emit `error` (the promise never settles); on entry removal failure
emit `error` (the promise never settles); on success emit `finish` (which
runs `destroy`) and resolve.  Memory strategy: emit `finish` (running
`destroy`); no executor path resolves, so the promise stays pending.  With
no write mode set the executor does nothing and the promise stays pending. -/
def CustomFile.remove (env : RemoveEnv) (s : CustomFile) :
    List Ev × List FsOp × CustomFile × Settle :=
  match s.writeMode with
  | some WMode.fs =>
      match env.getFile with
      | Except.error e =>
          ([Ev.error e], [FsOp.getFile s.localName (false)], s, Settle.pending)
      | Except.ok _ =>
          match env.removeEntry with
          | Except.error e =>
              ([Ev.error e], [FsOp.getFile s.localName (false), FsOp.removeEntry],
               s, Settle.pending)
          | Except.ok _ =>
              (s.emitFinish.1, [FsOp.getFile s.localName (false), FsOp.removeEntry],
               s.emitFinish.2, Settle.resolved)
  | some WMode.mem => (s.emitFinish.1, [], s.emitFinish.2, Settle.pending)
  | none => ([], [], s, Settle.pending)

/-- A read-mode instance over a source file of `S` bytes (declared size `S`)
with piece length `L`, after `init()` opened the read stream. -/
def readReady (S L p : ℕ) (t fn : String) : CustomFile :=
  (CustomFile.init { temporary := false, fsRequest := Except.ok () }
    (mkCustomFile 2
      { file := some S, pieces := p, pieceLength := L,
        filename := fn, typ := t, size := S } 0 false)).2

/-- A write-mode instance of declared size 10 after `init()` selected the
memory strategy. -/
def exMemReady : CustomFile :=
  (CustomFile.init { temporary := false, fsRequest := Except.ok () }
    (mkCustomFile 1
      { file := none, pieces := 2, pieceLength := 5,
        filename := "a", typ := "t", size := 10 } 0 false)).2

/-- A write-mode instance of declared size 600 MiB after `init()` selected
the file-system strategy. -/
def exFsReady : CustomFile :=
  (CustomFile.init { temporary := true, fsRequest := Except.ok () }
    (mkCustomFile 1
      { file := none, pieces := 4, pieceLength := 5,
        filename := "a", typ := "t", size := 600 * 1024 * 1024 } 0 true)).2

/-- A read-mode instance over a 10-byte source after `init()` opened the
read stream. -/
def exReadReady : CustomFile :=
  (CustomFile.init { temporary := false, fsRequest := Except.ok () }
    (mkCustomFile 2
      { file := some 10, pieces := 2, pieceLength := 5,
        filename := "a", typ := "t", size := 10 } 0 false)).2

lemma Emitter.emitSeq_nil (k : ℕ) (evt : String) :
    Emitter.emitSeq k evt { listeners := [] } = [] := by
  induction k with
  | zero => rfl
  | succ k ih => simpa [Emitter.emitSeq, Emitter.emitEv] using ih

/-- C1: for every write-mode instance whose declaredSize is below 500 MiB
(500 * 1024 * 1024 bytes), `init()` selects the memory strategy
unconditionally and emits exactly one `ready` event and no `error` event. -/
theorem C1_small_write_init_selects_memory
    (opts : CustomFileOptions) (ts : ℕ) (rfs : Bool) (env : InitEnv)
    (h : opts.size < 500 * 1024 * 1024) :
    (CustomFile.init env (mkCustomFile 1 opts ts rfs)).1 = [Ev.ready] ∧
    (CustomFile.init env (mkCustomFile 1 opts ts rfs)).2.writeMode = some WMode.mem ∧
    (CustomFile.init env (mkCustomFile 1 opts ts rfs)).2.memoryStorage = some [] := by
  have hlt : jsLtLit (some opts.size) (500 * 1024 * 1024) = true := by
    simp [jsLtLit, h]
  simp [CustomFile.init, mkCustomFile, hlt]

/-- C1 witness at a concrete 10-byte instance. -/
theorem C1_witness :
    (CustomFile.init { temporary := false, fsRequest := Except.ok () }
      (mkCustomFile 1
        { file := none, pieces := 2, pieceLength := 5,
          filename := "a", typ := "t", size := 10 } 0 false)).1 = [Ev.ready] ∧
    (CustomFile.init { temporary := false, fsRequest := Except.ok () }
      (mkCustomFile 1
        { file := none, pieces := 2, pieceLength := 5,
          filename := "a", typ := "t", size := 10 } 0 false)).2.writeMode
      = some WMode.mem ∧
    (CustomFile.init { temporary := false, fsRequest := Except.ok () }
      (mkCustomFile 1
        { file := none, pieces := 2, pieceLength := 5,
          filename := "a", typ := "t", size := 10 } 0 false)).2.memoryStorage
      = some [] :=
  C1_small_write_init_selects_memory _ 0 false _ (by decide)

/-- C9: registering a callback with `once(event, callback)` behaves
identically to registering it with `on(event, callback)` — the source's
`once` body is `return super.on(evt, callback)` — so the callback fires on
every subsequent emission of the event, not only the first (for contrast, a
natively once-registered listener fires exactly once). -/
theorem C9_once_behaves_like_on :
    (∀ evt cb e, customOnce evt cb e = customOn evt cb e) ∧
    (∀ evt cb k,
      (Emitter.emitSeq k evt (customOnce evt cb { listeners := [] })).count cb = k) ∧
    (∀ evt cb k,
      (Emitter.emitSeq k evt
        (Emitter.addOnceNative evt cb { listeners := [] })).count cb = min k 1) := by
  refine ⟨fun _ _ _ => rfl, fun evt cb k => ?_, fun evt cb k => ?_⟩
  · have hone : customOnce evt cb { listeners := [] }
        = { listeners := [(evt, cb, false)] } := rfl
    rw [hone]
    induction k with
    | zero => rfl
    | succ k ih =>
        have hstep : Emitter.emitEv evt ({ listeners := [(evt, cb, false)] } : Emitter)
            = ([cb], { listeners := [(evt, cb, false)] }) := by
          simp [Emitter.emitEv]
        simp [Emitter.emitSeq, hstep, ih]
  · have hone : Emitter.addOnceNative evt cb { listeners := [] }
        = { listeners := [(evt, cb, true)] } := rfl
    rw [hone]
    cases k with
    | zero => rfl
    | succ k =>
        have hstep : Emitter.emitEv evt ({ listeners := [(evt, cb, true)] } : Emitter)
            = ([cb], { listeners := [] }) := by
          simp [Emitter.emitEv]
        simp [Emitter.emitSeq, hstep, Emitter.emitSeq_nil]

/-- C10: the promise returned by `remove()` resolves on the fs path's
successful deletion and only there; on the memory path (which still emits
`finish`), on both fs failure branches (which emit `error`), and with no
write mode set, it neither resolves nor rejects. -/
theorem C10_remove_promise_settlement (s : CustomFile) (env : RemoveEnv) :
    (s.writeMode = some WMode.fs → env.getFile = Except.ok () →
      env.removeEntry = Except.ok () →
      (s.remove env).2.2.2 = Settle.resolved ∧ Ev.finish ∈ (s.remove env).1) ∧
    (s.writeMode = some WMode.mem →
      (s.remove env).2.2.2 = Settle.pending ∧ Ev.finish ∈ (s.remove env).1) ∧
    (∀ e, s.writeMode = some WMode.fs → env.getFile = Except.error e →
      (s.remove env).2.2.2 = Settle.pending ∧ (s.remove env).1 = [Ev.error e]) ∧
    (∀ e, s.writeMode = some WMode.fs → env.getFile = Except.ok () →
      env.removeEntry = Except.error e →
      (s.remove env).2.2.2 = Settle.pending ∧ (s.remove env).1 = [Ev.error e]) ∧
    (s.writeMode = none →
      (s.remove env).2.2.2 = Settle.pending ∧ (s.remove env).1 = []) ∧
    ((s.remove env).2.2.2 = Settle.resolved →
      s.writeMode = some WMode.fs ∧ env.getFile = Except.ok () ∧
      env.removeEntry = Except.ok ()) ∧
    (∀ e, (s.remove env).2.2.2 ≠ Settle.rejected e) := by
  refine ⟨?_, ?_, ?_, ?_, ?_, ?_, ?_⟩
  · intro hw hg hr
    simp [CustomFile.remove, hw, hg, hr, CustomFile.emitFinish, CustomFile.destroyFn]
  · intro hw
    simp [CustomFile.remove, hw, CustomFile.emitFinish, CustomFile.destroyFn]
  · intro e hw hg
    simp [CustomFile.remove, hw, hg]
  · intro e hw hg hr
    simp [CustomFile.remove, hw, hg, hr]
  · intro hw
    simp [CustomFile.remove, hw]
  · intro hres
    rcases hw : s.writeMode with _ | m
    · simp [CustomFile.remove, hw] at hres
    · cases m
      · simp [CustomFile.remove, hw] at hres
      · rcases hg : env.getFile with e | u
        · simp [CustomFile.remove, hw, hg] at hres
        · cases u
          rcases hr : env.removeEntry with e | u
          · simp [CustomFile.remove, hw, hg, hr] at hres
          · cases u
            exact ⟨rfl, rfl, rfl⟩
  · intro e
    rcases hw : s.writeMode with _ | m
    · simp [CustomFile.remove, hw]
    · cases m
      · simp [CustomFile.remove, hw]
      · rcases hg : env.getFile with e2 | u
        · simp [CustomFile.remove, hw, hg]
        · cases u
          rcases hr : env.removeEntry with e2 | u
          · simp [CustomFile.remove, hw, hg, hr]
          · cases u
            simp [CustomFile.remove, hw, hg, hr]

/-- C10 witness: concrete instances of each settlement branch. -/
theorem C10_witness :
    ((exFsReady.remove { getFile := Except.ok (), removeEntry := Except.ok () }).2.2.2
        = Settle.resolved ∧
      Ev.finish ∈ (exFsReady.remove
        { getFile := Except.ok (), removeEntry := Except.ok () }).1) ∧
    ((exMemReady.remove { getFile := Except.ok (), removeEntry := Except.ok () }).2.2.2
        = Settle.pending ∧
      Ev.finish ∈ (exMemReady.remove
        { getFile := Except.ok (), removeEntry := Except.ok () }).1) ∧
    ((exFsReady.remove { getFile := Except.error ("NOT_FOUND_ERR"),
                         removeEntry := Except.ok () }).2.2.2 = Settle.pending ∧
      (exFsReady.remove { getFile := Except.error ("NOT_FOUND_ERR"),
                          removeEntry := Except.ok () }).1
        = [Ev.error ("NOT_FOUND_ERR")]) :=
  ⟨(C10_remove_promise_settlement exFsReady _).1 (by decide) rfl rfl,
   (C10_remove_promise_settlement exMemReady _).2.1 (by decide),
   (C10_remove_promise_settlement exFsReady _).2.2.1 "NOT_FOUND_ERR" (by decide) rfl⟩

lemma sliceSize_nonneg (n : ℕ) (a b : ℚ) : 0 ≤ sliceSize n a b :=
  le_max_right _ _

lemma sliceSize_le (n : ℕ) (a b c : ℚ) (ha : 0 ≤ a) (hac : a ≤ c) (hbc : b ≤ c) :
    sliceSize n a b ≤ c - a := by
  unfold sliceSize
  rcases le_total a (n : ℚ) with h | h
  · have h1 : min (max a 0) (n : ℚ) = a := by
      rw [max_eq_left ha]; exact min_eq_left h
    rw [h1]
    refine max_le ?_ (by linarith)
    have h2 : min b (n : ℚ) ≤ b := min_le_left _ _
    linarith
  · have h1 : min (max a 0) (n : ℚ) = (n : ℚ) := by
      rw [max_eq_left ha]; exact min_eq_right h
    rw [h1]
    refine max_le ?_ (by linarith)
    have h2 : min b (n : ℚ) ≤ (n : ℚ) := min_le_right _ _
    linarith

/-- C2 counterexample: on a memory-strategy instance of declared size 10, a
single 20-byte append drives `bytesWritten` to 20, exceeding `declaredSize`
(there is no clamp), and the subsequent `remove()` (whose `finish` listener
runs `destroy()`) resets `bytesWritten` back to 0, so the counter is not
monotonically non-decreasing across operation sequences either. -/
theorem C2_counterexample :
    exMemReady.size = some 10 ∧ exMemReady.bytesWritten = some 0 ∧
    (exMemReady.writeMem 20).2.1.bytesWritten = some 20 ∧
    ¬ ((20 : ℚ) ≤ (10 : ℚ)) ∧
    ((exMemReady.writeMem 20).2.1.remove
        { getFile := Except.ok (), removeEntry := Except.ok () }).2.2.1.bytesWritten
      = some 0 := by
  refine ⟨rfl, rfl, ?_, by norm_num, ?_⟩
  · show (jsAdd (some 0) (some ((20 : ℕ) : ℚ))) = some 20
    simp [jsAdd]
  · rfl

/-- C2 (amended): `bytesWritten` and `bytesRead` start at 0; a memory append
and a persistent (fs) append never decrease `bytesWritten` (the fs append
increments on write completion and leaves the counter unchanged on open or
write failure); a chunked read never decreases `bytesRead` and preserves
`bytesRead ≤ declaredSize`; but `bytesWritten` is not bounded by
`declaredSize` (appends are unclamped), and `destroy()` resets both
counters to 0, so monotonicity does not extend across destroy. -/
theorem C2_amended_counters (s : CustomFile) :
    (∀ mode opts ts rfs,
      (mkCustomFile mode opts ts rfs).bytesWritten = some 0 ∧
      (mkCustomFile mode opts ts rfs).bytesRead = some 0) ∧
    (∀ (c : ℕ) (w : ℚ), s.bytesWritten = some w →
      ∃ w2, (s.writeMem c).2.1.bytesWritten = some w2 ∧ w ≤ w2) ∧
    (∀ (env : FsWriteEnv) (c : ℕ) (w : ℚ), s.bytesWritten = some w →
      ∃ w2, (s.writeFs env c).2.2.1.bytesWritten = some w2 ∧ w ≤ w2) ∧
    (∀ (pull : Pull) (r : ℚ) (n : ℕ),
      s.bytesRead = some r → 0 ≤ r → r ≤ (n : ℚ) → s.size = some n →
      ∃ r2, (s.read true pull).2.1.bytesRead = some r2 ∧ r ≤ r2 ∧ r2 ≤ (n : ℚ)) ∧
    (s.destroyFn.2.bytesWritten = some 0 ∧ s.destroyFn.2.bytesRead = some 0) := by
  refine ⟨fun mode opts ts rfs => ⟨rfl, rfl⟩, ?_, ?_, ?_, ⟨rfl, rfl⟩⟩
  · intro c w hw
    cases hm : s.memoryStorage with
    | none => exact ⟨w, by simp [CustomFile.writeMem, hm, hw], le_refl w⟩
    | some l =>
        refine ⟨w + c, ?_, ?_⟩
        · simp [CustomFile.writeMem, hm, hw, jsAdd]
        · have hc : (0 : ℚ) ≤ (c : ℚ) := Nat.cast_nonneg c
          linarith
  · intro env c w hw
    rcases hget : env.getFile with e | u
    · exact ⟨w, by simp [CustomFile.writeFs, hget, hw], le_refl w⟩
    · rcases hwr : env.write with e | u
      · exact ⟨w, by simp [CustomFile.writeFs, hget, hwr, hw], le_refl w⟩
      · refine ⟨w + (c : ℚ), by simp [CustomFile.writeFs, hget, hwr, hw, jsAdd], ?_⟩
        have hc : (0 : ℚ) ≤ (c : ℚ) := Nat.cast_nonneg c
        linarith
  · intro pull r n hbr hr0 hrn hsz
    by_cases hlt : r < (n : ℚ)
    · cases hf : s.file with
      | none =>
          refine ⟨r, ?_, le_refl r, hrn⟩
          simp [CustomFile.read, jsLtSize, hbr, hsz, hlt, hf]
      | some m =>
          have hstop : min (r + ((s.pieceLength.getD 0 : ℕ) : ℚ)) ((n : ℕ) : ℚ)
              ≤ (n : ℚ) := min_le_right _ _
          have hbs0 := sliceSize_nonneg m r
            (min (r + ((s.pieceLength.getD 0 : ℕ) : ℚ)) ((n : ℕ) : ℚ))
          have hbs := sliceSize_le m r
            (min (r + ((s.pieceLength.getD 0 : ℕ) : ℚ)) ((n : ℕ) : ℚ)) (n : ℚ)
            hr0 hrn hstop
          refine ⟨r + sliceSize m r
            (min (r + ((s.pieceLength.getD 0 : ℕ) : ℚ)) ((n : ℕ) : ℚ)), ?_, by linarith,
            by linarith⟩
          simp [CustomFile.read, jsLtSize, hbr, hsz, hlt, hf]
    · refine ⟨r, ?_, le_refl r, hrn⟩
      simp [CustomFile.read, jsLtSize, hbr, hsz, hlt]

/-- C2 witness: the amended statement applied at concrete memory- and
fs-ready instances — one 3-byte memory append, one successful 5-byte fs
append, and one chunked read. -/
theorem C2_amended_witness :
    (∃ w2, (exMemReady.writeMem 3).2.1.bytesWritten = some w2 ∧ (0 : ℚ) ≤ w2) ∧
    (∃ w2, (exFsReady.writeFs { getFile := Except.ok (), write := Except.ok () }
        5).2.2.1.bytesWritten = some w2 ∧ (0 : ℚ) ≤ w2) ∧
    (∃ r2, (exMemReady.read true Pull.done).2.1.bytesRead = some r2 ∧
      (0 : ℚ) ≤ r2 ∧ r2 ≤ ((10 : ℕ) : ℚ)) :=
  ⟨(C2_amended_counters exMemReady).2.1 3 0 (by decide),
   (C2_amended_counters exFsReady).2.2.1
     { getFile := Except.ok (), write := Except.ok () } 5 0 (by decide),
   (C2_amended_counters exMemReady).2.2.2.1 Pull.done 0 10 (by decide) (by norm_num)
     (by norm_num) (by decide)⟩

/-- C6: the stream-mode read path is buggy.  On a pulled block the code runs
`this._bytesRead += value.bytesLenght` — `bytesLenght` is a misspelling of
`byteLength`, so the read property is `undefined` and `bytesRead` becomes
NaN (`none`) instead of advancing by the block's byte length; on a completed
stream the code emits `data` with `null` but then still dereferences the
`undefined` value, throwing a `TypeError`. -/
theorem C6_stream_read_typo_eval :
    ((exReadReady.read false (Pull.value 5)).2.1.bytesRead = none ∧
      ¬ ((exReadReady.read false (Pull.value 5)).2.1.bytesRead
          = some ((0 : ℚ) + 5)) ∧
      (exReadReady.read false (Pull.value 5)).1
        = [Ev.dataBlock 5, Ev.progress none]) ∧
    ((exReadReady.read false Pull.done).1 = [Ev.dataNull] ∧
      (exReadReady.read false Pull.done).2.2 = true) := by decide

/-- C7 counterexample: after a successful fs-path `remove()` (which emits
`finish` and thereby runs `destroy()`, clearing `_writeMode`), a second
`remove()` matches neither strategy branch: it emits no events at all — in
particular no "not found" `error` event — issues no storage operation, and
its promise never settles. -/
theorem C7_counterexample :
    (exFsReady.remove { getFile := Except.ok (), removeEntry := Except.ok () }).1
      = [Ev.finish, Ev.done, Ev.destroyEv] ∧
    ((exFsReady.remove { getFile := Except.ok (), removeEntry := Except.ok () }).2.2.1.remove
        { getFile := Except.error ("NOT_FOUND_ERR"), removeEntry := Except.ok () }).1
      = [] ∧
    ((exFsReady.remove { getFile := Except.ok (), removeEntry := Except.ok () }).2.2.1.remove
        { getFile := Except.error ("NOT_FOUND_ERR"), removeEntry := Except.ok () }).2.1
      = [] ∧
    ((exFsReady.remove { getFile := Except.ok (), removeEntry := Except.ok () }).2.2.1.remove
        { getFile := Except.error ("NOT_FOUND_ERR"), removeEntry := Except.ok () }).2.2.2
      = Settle.pending := by decide

/-- C7 (amended): after a successful fs-path `remove()`, the `finish`
listener runs `destroy()` and clears the write mode, so a second `remove()`
against the same instance performs no deletion, emits no events (hence no
"not found" error), and returns a promise that never settles. -/
theorem C7_amended_second_remove (s : CustomFile) (env1 env2 : RemoveEnv)
    (hfs : s.writeMode = some WMode.fs)
    (h1 : env1.getFile = Except.ok ()) (h2 : env1.removeEntry = Except.ok ()) :
    (s.remove env1).2.2.1.writeMode = none ∧
    ((s.remove env1).2.2.1.remove env2).1 = [] ∧
    ((s.remove env1).2.2.1.remove env2).2.1 = [] ∧
    ((s.remove env1).2.2.1.remove env2).2.2.2 = Settle.pending := by
  simp [CustomFile.remove, hfs, h1, h2, CustomFile.emitFinish, CustomFile.destroyFn]

/-- C7 witness at the concrete fs-ready instance. -/
theorem C7_amended_witness :
    (exFsReady.remove
        { getFile := Except.ok (), removeEntry := Except.ok () }).2.2.1.writeMode
      = none ∧
    ((exFsReady.remove { getFile := Except.ok (), removeEntry := Except.ok () }).2.2.1.remove
        { getFile := Except.error ("NOT_FOUND_ERR"), removeEntry := Except.ok () }).1
      = [] ∧
    ((exFsReady.remove { getFile := Except.ok (), removeEntry := Except.ok () }).2.2.1.remove
        { getFile := Except.error ("NOT_FOUND_ERR"), removeEntry := Except.ok () }).2.1
      = [] ∧
    ((exFsReady.remove { getFile := Except.ok (), removeEntry := Except.ok () }).2.2.1.remove
        { getFile := Except.error ("NOT_FOUND_ERR"), removeEntry := Except.ok () }).2.2.2
      = Settle.pending :=
  C7_amended_second_remove exFsReady _ _ (by decide) rfl rfl

/-- C8 counterexample: `destroy()` clears neither `_readStream` nor
`_reader`, so on a read-mode instance initialized before `destroy()` a
stream-mode `read(false)` still pulls from the reader: it emits a `progress`
event and mutates `bytesRead` away from its post-destroy reset value 0. -/
theorem C8_counterexample :
    exReadReady.destroyFn.2.destroyed = true ∧
    exReadReady.destroyFn.2.bytesRead = some 0 ∧
    (exReadReady.destroyFn.2.read false (Pull.value 5)).1
      = [Ev.dataBlock 5, Ev.progress none] ∧
    ¬ ((exReadReady.destroyFn.2.read false (Pull.value 5)).2.1.bytesRead
        = some 0) := by decide

/-- C8 (amended): after `destroy()`, `write`, chunked `read`, `save` and
`remove` all leave both counters unchanged at their reset value 0 and emit
no `progress` event; but stream-mode `read(false)` is not guarded — on an
instance whose read stream was opened before `destroy()`, it still pulls,
emits a `progress` event, and corrupts `bytesRead` to NaN. -/
theorem C8_amended_post_destroy (s : CustomFile) (env : FsWriteEnv)
    (renv : RemoveEnv) (c : ℕ) (pull : Pull) :
    ((s.destroyFn.2.write env c).1 = [Ev.error ("No write mode set.")] ∧
      (s.destroyFn.2.write env c).2.2.1 = s.destroyFn.2) ∧
    (s.destroyFn.2.read true pull = ([Ev.dataNull], s.destroyFn.2, false)) ∧
    ((s.destroyFn.2.save).1 = [] ∧ (s.destroyFn.2.save).2.1 = s.destroyFn.2) ∧
    (s.destroyFn.2.remove renv = ([], [], s.destroyFn.2, Settle.pending)) ∧
    (s.hasReadStream = true →
      (s.destroyFn.2.read false (Pull.value c)).1
        = [Ev.dataBlock c, Ev.progress none] ∧
      (s.destroyFn.2.read false (Pull.value c)).2.1.bytesRead = none) := by
  refine ⟨⟨rfl, rfl⟩, ?_, ⟨rfl, rfl⟩, rfl, ?_⟩
  · simp [CustomFile.read, CustomFile.destroyFn, jsLtSize]
  · intro hrs
    constructor <;>
      simp [CustomFile.read, CustomFile.destroyFn, hrs, jsAdd, jsDiv]

/-- C8 witness at the concrete destroyed read-mode instance. -/
theorem C8_amended_witness :
    (exReadReady.destroyFn.2.read false (Pull.value 7)).1
      = [Ev.dataBlock 7, Ev.progress none] ∧
    (exReadReady.destroyFn.2.read false (Pull.value 7)).2.1.bytesRead = none :=
  (C8_amended_post_destroy exReadReady { getFile := Except.ok (), write := Except.ok () }
    { getFile := Except.ok (), removeEntry := Except.ok () } 7 Pull.done).2.2.2.2
    (by decide)

lemma init_small_write_state (opts : CustomFileOptions) (ts : ℕ) (rfs : Bool)
    (env : InitEnv) (h : opts.size < 500 * 1024 * 1024) :
    (CustomFile.init env (mkCustomFile 1 opts ts rfs)).2 =
      { mkCustomFile 1 opts ts rfs with
          memoryStorage := some [], writeMode := some WMode.mem } := by
  have hlt : jsLtLit (some opts.size) (500 * 1024 * 1024) = true := by
    simp [jsLtLit, h]
  simp [CustomFile.init, mkCustomFile, hlt]

lemma memAppends_spec (cs : List ℕ) (s : CustomFile) (l : List ℕ) (w : ℚ)
    (hm : s.memoryStorage = some l) (hb : s.bytesWritten = some w) :
    memAppends cs s =
      { s with memoryStorage := some (l ++ cs),
               bytesWritten := some (w + (cs.sum : ℚ)) } := by
  induction cs generalizing s l w with
  | nil =>
      simp only [memAppends, List.append_nil, List.sum_nil, Nat.cast_zero, add_zero]
      rw [← hm, ← hb]
  | cons c cs ih =>
      rw [memAppends]
      have hwrite : (s.writeMem c).2.1 =
          { s with memoryStorage := some (l ++ [c]),
                   bytesWritten := some (w + (c : ℚ)) } := by
        simp [CustomFile.writeMem, hm, hb, jsAdd]
      rw [hwrite, ih _ (l ++ [c]) (w + (c : ℚ)) (by simp) (by simp)]
      simp only [List.append_assoc, List.singleton_append, List.sum_cons]
      have hsum : (w + (c : ℚ)) + ((cs.sum : ℕ) : ℚ)
          = w + (((c + cs.sum : ℕ)) : ℚ) := by push_cast; ring
      rw [hsum]

/-- C3: on a memory-strategy instance, after the N-th append `bytesWritten`
equals the sum of the appended chunks' byte lengths, and the `progress`
event emitted by the N-th append carries N / pieceCount, independent of the
chunks' byte sizes (the N-th append here is `writeMem c` after the prefix
`pre`, so N = pre.length + 1). -/
theorem C3_mem_append_progress_and_sum
    (opts : CustomFileOptions) (ts : ℕ) (rfs : Bool) (env : InitEnv)
    (hsz : opts.size < 500 * 1024 * 1024) (hp : 0 < opts.pieces)
    (pre : List ℕ) (c : ℕ) :
    ((memAppends pre (CustomFile.init env (mkCustomFile 1 opts ts rfs)).2).writeMem c).1
      = [Ev.progress (some (((pre.length + 1 : ℕ) : ℚ) / ((opts.pieces : ℕ) : ℚ)))] ∧
    (memAppends (pre ++ [c])
        (CustomFile.init env (mkCustomFile 1 opts ts rfs)).2).bytesWritten
      = some (((pre ++ [c]).sum : ℚ)) := by
  rw [init_small_write_state opts ts rfs env hsz]
  have hm : ({ mkCustomFile 1 opts ts rfs with
      memoryStorage := some [], writeMode := some WMode.mem }).memoryStorage
      = some [] := rfl
  have hb : ({ mkCustomFile 1 opts ts rfs with
      memoryStorage := some [], writeMode := some WMode.mem }).bytesWritten
      = some 0 := rfl
  constructor
  · rw [memAppends_spec pre _ [] 0 hm hb]
    have hp0 : opts.pieces ≠ 0 := Nat.pos_iff_ne_zero.mp hp
    simp [CustomFile.writeMem, jsDiv, mkCustomFile, hp0]
  · rw [memAppends_spec (pre ++ [c]) _ [] 0 hm hb]
    simp

/-- C3 witness: two 3- and 7-byte appends then a 5-byte append on a
4-piece instance. -/
theorem C3_witness :
    ((memAppends [3, 7] (CustomFile.init { temporary := false, fsRequest := Except.ok () }
        (mkCustomFile 1 { file := none, pieces := 4, pieceLength := 5,
                          filename := "a", typ := "t", size := 20 } 0 false)).2).writeMem 5).1
      = [Ev.progress (some ((([3, 7].length + 1 : ℕ) : ℚ) / (((4 : ℕ) : ℕ) : ℚ)))] ∧
    (memAppends ([3, 7] ++ [5]) (CustomFile.init { temporary := false, fsRequest := Except.ok () }
        (mkCustomFile 1 { file := none, pieces := 4, pieceLength := 5,
                          filename := "a", typ := "t", size := 20 } 0 false)).2).bytesWritten
      = some ((([3, 7] ++ [5]).sum : ℚ)) :=
  C3_mem_append_progress_and_sum
    { file := none, pieces := 4, pieceLength := 5,
      filename := "a", typ := "t", size := 20 } 0 false
    { temporary := false, fsRequest := Except.ok () }
    (by norm_num) (by norm_num) [3, 7] 5

/-- C4: on the persistent strategy, each append opens the entry, seeks the
writer to the value of `bytesWritten` at the time of the call, then writes
the chunk; on write completion it increments `bytesWritten` by the chunk's
byte length and emits `progress` = `bytesWritten / declaredSize`; on write
failure it rejects the returned promise and does not advance
`bytesWritten`. -/
theorem C4_writeFs_seek_and_progress (s : CustomFile) (env : FsWriteEnv)
    (c : ℕ) (w : ℚ) (n : ℕ) (hw : s.bytesWritten = some w) (hn : s.size = some n)
    (hn0 : n ≠ 0) (hget : env.getFile = Except.ok ()) :
    (s.writeFs env c).2.1
      = [FsOp.getFile s.localName s.create, FsOp.seek (some w), FsOp.writeBlob c] ∧
    (env.write = Except.ok () →
      (s.writeFs env c).2.2.1.bytesWritten = some (w + (c : ℚ)) ∧
      (s.writeFs env c).1
        = [Ev.progress (some ((w + (c : ℚ)) / ((n : ℕ) : ℚ)))] ∧
      (s.writeFs env c).2.2.2 = Settle.resolved) ∧
    (∀ e, env.write = Except.error e →
      (s.writeFs env c).2.2.1.bytesWritten = some w ∧
      (s.writeFs env c).1 = [] ∧
      (s.writeFs env c).2.2.2 = Settle.rejected e) := by
  refine ⟨?_, ?_, ?_⟩
  · rcases henv : env.write with e | u <;>
      simp [CustomFile.writeFs, hget, henv, hw]
  · intro hwr
    simp [CustomFile.writeFs, hget, hwr, hw, hn, jsAdd, jsDiv, hn0]
  · intro e hwr
    simp [CustomFile.writeFs, hget, hwr, hw]

/-- C4 witness: a successful 5-byte fs append on the fs-ready instance. -/
theorem C4_witness :
    (exFsReady.writeFs { getFile := Except.ok (), write := Except.ok () } 5).2.1
      = [FsOp.getFile exFsReady.localName exFsReady.create,
         FsOp.seek (some 0), FsOp.writeBlob 5] ∧
    ((exFsReady.writeFs { getFile := Except.ok (), write := Except.ok () } 5).2.2.1.bytesWritten
      = some ((0 : ℚ) + ((5 : ℕ) : ℚ)) ∧
     (exFsReady.writeFs { getFile := Except.ok (), write := Except.ok () } 5).1
      = [Ev.progress (some (((0 : ℚ) + ((5 : ℕ) : ℚ))
          / (((600 * 1024 * 1024 : ℕ) : ℕ) : ℚ)))] ∧
     (exFsReady.writeFs { getFile := Except.ok (), write := Except.ok () } 5).2.2.2
      = Settle.resolved) :=
  ⟨(C4_writeFs_seek_and_progress exFsReady _ 5 0 (600 * 1024 * 1024)
      (by decide) (by decide) (by norm_num) rfl).1,
   (C4_writeFs_seek_and_progress exFsReady _ 5 0 (600 * 1024 * 1024)
      (by decide) (by decide) (by norm_num) rfl).2.1 rfl⟩

lemma ceilDiv_mul_bounds (S L : ℕ) (hL : 0 < L) :
    S ≤ ceilDiv S L * L ∧ ceilDiv S L * L < S + L := by
  have h := Nat.div_add_mod (S + L - 1) L
  have h2 : (S + L - 1) % L < L := Nat.mod_lt _ hL
  unfold ceilDiv
  rw [mul_comm]
  generalize hx : L * ((S + L - 1) / L) = x at h ⊢
  generalize hr : (S + L - 1) % L = r at h h2
  omega

lemma lt_ceilDiv_iff (S L k : ℕ) (hL : 0 < L) :
    k < ceilDiv S L ↔ k * L < S := by
  obtain ⟨h1, h2⟩ := ceilDiv_mul_bounds S L hL
  constructor
  · intro hk
    have h3 : (k + 1) * L ≤ ceilDiv S L * L := Nat.mul_le_mul_right L hk
    have h4 : (k + 1) * L < S + L := lt_of_le_of_lt h3 h2
    rw [Nat.succ_mul] at h4
    omega
  · intro hk
    by_contra hc
    push_neg at hc
    have h3 : ceilDiv S L * L ≤ k * L := Nat.mul_le_mul_right L hc
    omega

lemma read_chunked_step (s : CustomFile) (S L m : ℕ)
    (hf : s.file = some S) (hsz : s.size = some S) (hpl : s.pieceLength = some L)
    (hbr : s.bytesRead = some ((m : ℕ) : ℚ)) (hm : m ≤ S) :
    s.read true Pull.done =
      if m < S then
        ([Ev.dataSlice ((m : ℕ) : ℚ) ((min (m + L) S : ℕ) : ℚ) s.typ
            ((min (m + L) S - m : ℕ) : ℚ),
          Ev.progress (some (((min (m + L) S : ℕ) : ℚ) / ((S : ℕ) : ℚ)))],
         { s with bytesRead := some ((min (m + L) S : ℕ) : ℚ) }, false)
      else ([Ev.dataNull], s, false) := by
  have hmin : m ≤ min (m + L) S := le_min (Nat.le_add_right m L) hm
  by_cases hlt : m < S
  · rw [if_pos hlt]
    have hltq : ((m : ℕ) : ℚ) < ((S : ℕ) : ℚ) := by exact_mod_cast hlt
    have hS0 : S ≠ 0 := by omega
    have hstop : min (((m : ℕ) : ℚ) + ((L : ℕ) : ℚ)) ((S : ℕ) : ℚ)
        = ((min (m + L) S : ℕ) : ℚ) := by
      rw [Nat.cast_min, Nat.cast_add]
    have hbs : sliceSize S ((m : ℕ) : ℚ) ((min (m + L) S : ℕ) : ℚ)
        = ((min (m + L) S - m : ℕ) : ℚ) := by
      have e1 : max ((m : ℕ) : ℚ) 0 = ((m : ℕ) : ℚ) :=
        max_eq_left (Nat.cast_nonneg m)
      have e2 : min ((m : ℕ) : ℚ) ((S : ℕ) : ℚ) = ((m : ℕ) : ℚ) :=
        min_eq_left (by exact_mod_cast hm)
      have e3 : min ((min (m + L) S : ℕ) : ℚ) ((S : ℕ) : ℚ)
          = ((min (m + L) S : ℕ) : ℚ) :=
        min_eq_left (by exact_mod_cast min_le_right (m + L) S)
      have e4 : (0 : ℚ) ≤ ((min (m + L) S : ℕ) : ℚ) - ((m : ℕ) : ℚ) := by
        have h5 := (Nat.cast_le (α := ℚ)).mpr hmin
        linarith
      unfold sliceSize
      rw [e1, e2, e3, max_eq_left e4, ← Nat.cast_sub hmin]
    have haddbs : ((m : ℕ) : ℚ) + ((min (m + L) S - m : ℕ) : ℚ)
        = ((min (m + L) S : ℕ) : ℚ) := by
      rw [Nat.cast_sub hmin]; ring
    simp only [CustomFile.read, jsLtSize, hbr, hsz, hf, hpl, Option.getD_some,
      decide_eq_true_eq, if_true, Bool.not_true]
    rw [if_pos hltq, hstop, hbs, haddbs]
    simp [jsDiv, hS0]
  · rw [if_neg hlt]
    have hltq : ¬ (((m : ℕ) : ℚ) < ((S : ℕ) : ℚ)) := by exact_mod_cast hlt
    simp only [CustomFile.read, jsLtSize, hbr, hsz, decide_eq_true_eq, if_true]
    rw [if_neg hltq]

lemma chunkedIter_state (s : CustomFile) (S L : ℕ)
    (hf : s.file = some S) (hsz : s.size = some S) (hpl : s.pieceLength = some L)
    (hbr : s.bytesRead = some 0) :
    ∀ k, chunkedIter k s = { s with bytesRead := some ((min (k * L) S : ℕ) : ℚ) } := by
  intro k
  induction k with
  | zero =>
      simp only [chunkedIter, Nat.zero_mul]
      rw [min_eq_left (Nat.zero_le S), Nat.cast_zero, ← hbr]
  | succ k ih =>
      rw [chunkedIter, ih]
      have hstep := read_chunked_step
        { s with bytesRead := some ((min (k * L) S : ℕ) : ℚ) } S L (min (k * L) S)
        hf hsz hpl rfl (min_le_right _ _)
      rw [hstep]
      by_cases hlt : min (k * L) S < S
      · rw [if_pos hlt]
        have hkL : min (k * L) S = k * L := by omega
        have hgoal : min (min (k * L) S + L) S = min ((k + 1) * L) S := by
          rw [hkL, Nat.succ_mul]
        simp only [hgoal]
      · rw [if_neg hlt]
        have hS : min (k * L) S = S := by omega
        have hS2 : min ((k + 1) * L) S = S := by rw [Nat.succ_mul]; omega
        rw [hS, hS2]

/-- C5: iterating `read(true)` on a read-mode instance over a source of `S`
bytes with piece length `L` yields exactly `ceilDiv S L` non-null `data`
events — the (k+1)-st carrying the byte range
`[k*L, min(k*L + L, S))` typed with the mime type and followed by a
`progress` event of the post-advance `bytesRead / declaredSize` — then one
`data` event with the null sentinel, with `bytesRead = S` after the
sequence. -/
theorem C5_chunked_read_sequence (S L p : ℕ) (t fn : String) (hL : 0 < L) :
    (∀ k, k < ceilDiv S L →
      ((chunkedIter k (readReady S L p t fn)).read true Pull.done).1
        = [Ev.dataSlice ((k * L : ℕ) : ℚ) ((min (k * L + L) S : ℕ) : ℚ) (some t)
             ((min (k * L + L) S - k * L : ℕ) : ℚ),
           Ev.progress (some (((min (k * L + L) S : ℕ) : ℚ) / ((S : ℕ) : ℚ)))]) ∧
    ((chunkedIter (ceilDiv S L) (readReady S L p t fn)).read true Pull.done).1
      = [Ev.dataNull] ∧
    (chunkedIter (ceilDiv S L) (readReady S L p t fn)).bytesRead
      = some ((S : ℕ) : ℚ) := by
  have hf : (readReady S L p t fn).file = some S := rfl
  have hsz : (readReady S L p t fn).size = some S := rfl
  have hpl : (readReady S L p t fn).pieceLength = some L := rfl
  have hbr : (readReady S L p t fn).bytesRead = some 0 := rfl
  have hiter := chunkedIter_state (readReady S L p t fn) S L hf hsz hpl hbr
  have hceil := ceilDiv_mul_bounds S L hL
  refine ⟨?_, ?_, ?_⟩
  · intro k hk
    have hkL : k * L < S := (lt_ceilDiv_iff S L k hL).mp hk
    have hminL : min (k * L) S = k * L := min_eq_left (le_of_lt hkL)
    rw [hiter k, hminL]
    have hstep := read_chunked_step
      { readReady S L p t fn with bytesRead := some ((k * L : ℕ) : ℚ) } S L (k * L)
      hf hsz hpl rfl (le_of_lt hkL)
    rw [hstep, if_pos hkL]
    rfl
  · have hmS : min (ceilDiv S L * L) S = S := min_eq_right hceil.1
    rw [hiter (ceilDiv S L), hmS]
    have hstep := read_chunked_step
      { readReady S L p t fn with bytesRead := some ((S : ℕ) : ℚ) } S L S
      hf hsz hpl rfl (le_refl S)
    rw [hstep, if_neg (lt_irrefl S)]
  · have hmS : min (ceilDiv S L * L) S = S := min_eq_right hceil.1
    rw [hiter (ceilDiv S L), hmS]

/-- C5 witness: a 10-byte source with 4-byte pieces — three non-null reads,
then the null sentinel, with `bytesRead = 10`. -/
theorem C5_witness :
    ((chunkedIter 1 (readReady 10 4 3 "t" "a")).read true Pull.done).1
      = [Ev.dataSlice ((1 * 4 : ℕ) : ℚ) ((min (1 * 4 + 4) 10 : ℕ) : ℚ) (some "t")
           ((min (1 * 4 + 4) 10 - 1 * 4 : ℕ) : ℚ),
         Ev.progress (some (((min (1 * 4 + 4) 10 : ℕ) : ℚ) / ((10 : ℕ) : ℚ)))] ∧
    ((chunkedIter (ceilDiv 10 4) (readReady 10 4 3 "t" "a")).read true Pull.done).1
      = [Ev.dataNull] ∧
    (chunkedIter (ceilDiv 10 4) (readReady 10 4 3 "t" "a")).bytesRead
      = some ((10 : ℕ) : ℚ) :=
  ⟨(C5_chunked_read_sequence 10 4 3 "t" "a" (by norm_num)).1 1 (by decide),
   (C5_chunked_read_sequence 10 4 3 "t" "a" (by norm_num)).2.1,
   (C5_chunked_read_sequence 10 4 3 "t" "a" (by norm_num)).2.2⟩

end PearFS
